import Mathlib

/-!
# Kubelet container manager (`pkg/kubelet/cm`): CFS arithmetic and QoS resource policy

A shallow embedding of `cgroup_manager.go` (the conversions `MilliCPUToQuota` and
`MilliCPUToShares`), of `helpers_linux.go` (`ResourceConfigForPod`,
`GetCgroupSubsystems`, `getCgroupProcs`) and of `cgroup_manager_unsupported.go` (the
manager of builds without cgroup support).

Go's `int64` is modelled by `Int` together with `wrap64`, the two's-complement
reduction into `[-2^63, 2^63)`: every `int64` multiplication and addition of the source
is followed by `wrap64`, and `/` is Go's truncated division `Int.tdiv`.
-/

namespace cm

/-! ## Machine integers -/

/-- Smallest `int64`. -/
def minInt64 : Int := -9223372036854775808

/-- Largest `int64`. -/
def maxInt64 : Int := 9223372036854775807

/-- Two's-complement reduction of an integer into the `int64` range. -/
def wrap64 (x : Int) : Int :=
  (x + 9223372036854775808) % 18446744073709551616 - 9223372036854775808

/-- Go's `a * b` on `int64`. -/
def mul64 (a b : Int) : Int := wrap64 (a * b)

/-- Go's `a + b` on `int64`. -/
def add64 (a b : Int) : Int := wrap64 (a + b)

/-- Go's `a / b` on `int64`: the quotient truncated toward zero. -/
def div64 (a b : Int) : Int := wrap64 (Int.tdiv a b)

/-! ## `cgroup_manager.go` -/

def MinShares : Int := 2
def SharesPerCPU : Int := 1024
def MilliCPUToCPU : Int := 1000

def QuotaPeriod : Int := 100000
def MinQuotaPeriod : Int := 1000

/-- The function `MilliCPUToQuota`: converts milliCPU to CFS quota and period values.
The named results `quota` and `period` start at zero; the pair returned is
`(quota, period)`. -/
def MilliCPUToQuota (milliCPU : Int) : Int × Int :=
  if milliCPU = 0 then
    (0, 0)
  else
    let period := QuotaPeriod
    let quota := div64 (mul64 milliCPU QuotaPeriod) MilliCPUToCPU
    if quota < MinQuotaPeriod then
      (MinQuotaPeriod, period)
    else
      (quota, period)

/-- The function `MilliCPUToShares`: converts the milliCPU to CFS shares. -/
def MilliCPUToShares (milliCPU : Int) : Int :=
  if milliCPU = 0 then
    MinShares
  else
    let shares := div64 (mul64 milliCPU SharesPerCPU) MilliCPUToCPU
    if shares < MinShares then
      MinShares
    else
      shares

/-! ## The pod object model, as observed by `ResourceConfigForPod`

The packages `pkg/api` and `pkg/kubelet/qos` are collaborators of this code: a quantity
is represented by the three observations the policy makes of it, and the QoS classifier
is a parameter of `ResourceConfigForPod`. -/

/-- A resource quantity, seen through the accessors `MilliValue()`, `Value()` and
`IsZero()` that the policy calls on it. -/
structure Quantity where
  MilliValue : Int
  Value : Int
  IsZero : Bool
  deriving DecidableEq, Repr

/-- A resource list, seen through its accessors `Cpu()` and `Memory()`. -/
structure ResourceList where
  Cpu : Quantity
  Memory : Quantity
  deriving DecidableEq, Repr

structure ResourceRequirements where
  Limits : ResourceList
  Requests : ResourceList
  deriving DecidableEq, Repr

structure Container where
  Resources : ResourceRequirements
  deriving DecidableEq, Repr

structure PodSpec where
  Containers : List Container
  deriving DecidableEq, Repr

structure Pod where
  Spec : PodSpec
  deriving DecidableEq, Repr

/-- The three QoS classes of `pkg/kubelet/qos`. -/
inductive QOSClass where
  | Guaranteed
  | Burstable
  | BestEffort
  deriving DecidableEq, Repr

/-- The struct `ResourceConfig`: each field is a nullable pointer in the source, `none`
meaning that the field is not set. -/
structure ResourceConfig where
  Memory : Option Int
  CpuShares : Option Int
  CpuQuota : Option Int
  CpuPeriod : Option Int
  deriving DecidableEq, Repr

/-! ## `helpers_linux.go` -/

/-- The local variables of `ResourceConfigForPod` that its loop over the containers
updates. -/
structure podTotals where
  cpuRequests : Int
  cpuLimits : Int
  memoryLimits : Int
  memoryLimitsDeclared : Bool
  cpuLimitsDeclared : Bool
  deriving DecidableEq, Repr

/-- The values of the loop variables before the first iteration. -/
def podTotals.init : podTotals :=
  { cpuRequests := 0, cpuLimits := 0, memoryLimits := 0,
    memoryLimitsDeclared := true, cpuLimitsDeclared := true }

/-- One iteration of the loop of `ResourceConfigForPod` over `pod.Spec.Containers`. -/
def podTotals.step (t : podTotals) (container : Container) : podTotals :=
  { cpuRequests := add64 t.cpuRequests container.Resources.Requests.Cpu.MilliValue
    cpuLimits := add64 t.cpuLimits container.Resources.Limits.Cpu.MilliValue
    cpuLimitsDeclared :=
      if container.Resources.Limits.Cpu.IsZero then false else t.cpuLimitsDeclared
    memoryLimits := add64 t.memoryLimits container.Resources.Limits.Memory.Value
    memoryLimitsDeclared :=
      if container.Resources.Limits.Memory.IsZero then false else t.memoryLimitsDeclared }

/-- The value `&ResourceConfig{}`: no field is set. -/
def ResourceConfig.empty : ResourceConfig :=
  { Memory := none, CpuShares := none, CpuQuota := none, CpuPeriod := none }

/-- The function `ResourceConfigForPod`: takes the input pod and outputs the cgroup
resource config. `GetPodQOS` stands for `qos.GetPodQOS`. -/
def ResourceConfigForPod (GetPodQOS : Pod → QOSClass) (pod : Pod) : ResourceConfig :=
  -- sum requests and limits, track if limits were applied for each resource.
  let t := pod.Spec.Containers.foldl podTotals.step podTotals.init
  -- convert to CFS values
  let cpuShares := MilliCPUToShares t.cpuRequests
  let cpuQuota := (MilliCPUToQuota t.cpuLimits).1
  let cpuPeriod := (MilliCPUToQuota t.cpuLimits).2
  -- determine the qos class
  let qosClass := GetPodQOS pod
  -- build the result
  let result := ResourceConfig.empty
  if qosClass = QOSClass.Guaranteed then
    { result with
      CpuShares := some cpuShares
      CpuQuota := some cpuQuota
      CpuPeriod := some cpuPeriod
      Memory := some t.memoryLimits }
  else if qosClass = QOSClass.Burstable then
    let result := { result with CpuShares := some cpuShares }
    let result :=
      if t.cpuLimitsDeclared then
        { result with CpuQuota := some cpuQuota, CpuPeriod := some cpuPeriod }
      else result
    let result :=
      if t.memoryLimitsDeclared then { result with Memory := some t.memoryLimits }
      else result
    result
  else
    let shares := MinShares
    { result with CpuShares := some shares }

/-! ## Quantities read off a pod, for stating the policy -/

/-- The `int64` sum of a list of `int64` values: the exact sum reduced by `wrap64`. -/
def sum64 (l : List Int) : Int := wrap64 l.sum

/-- The CPU requests of the containers, in milliCPU, in container order. -/
def cpuRequestsOf (pod : Pod) : List Int :=
  pod.Spec.Containers.map (fun c => c.Resources.Requests.Cpu.MilliValue)

/-- The CPU limits of the containers, in milliCPU, in container order. -/
def cpuLimitsOf (pod : Pod) : List Int :=
  pod.Spec.Containers.map (fun c => c.Resources.Limits.Cpu.MilliValue)

/-- The memory limits of the containers, in bytes, in container order. -/
def memoryLimitsOf (pod : Pod) : List Int :=
  pod.Spec.Containers.map (fun c => c.Resources.Limits.Memory.Value)

/-- Every container of the pod has a non-zero CPU limit. -/
def allCpuLimitsNonZero (pod : Pod) : Bool :=
  pod.Spec.Containers.all (fun c => !c.Resources.Limits.Cpu.IsZero)

/-- Every container of the pod has a non-zero memory limit. -/
def allMemoryLimitsNonZero (pod : Pod) : Bool :=
  pod.Spec.Containers.all (fun c => !c.Resources.Limits.Memory.IsZero)

/-- A quantity holding an integral number `n` of units (bytes, for memory). -/
def Quantity.ofValue (n : Int) : Quantity := ⟨n * 1000, n, decide (n = 0)⟩

/-- A quantity holding `n` thousandths of a unit (milliCPU, for CPU); its `Value()` is
`n / 1000` rounded up. -/
def Quantity.ofMilli (n : Int) : Quantity := ⟨n, -((-n) / 1000), decide (n = 0)⟩

/-- A container with the given CPU request and limit (milliCPU) and memory request and
limit (bytes); zero stands for an absent entry. -/
def Container.ofResources (cpuRequest cpuLimit memRequest memLimit : Int) : Container :=
  ⟨⟨⟨Quantity.ofMilli cpuLimit, Quantity.ofValue memLimit⟩,
    ⟨Quantity.ofMilli cpuRequest, Quantity.ofValue memRequest⟩⟩⟩

/-! ## Pods used as concrete inputs -/

/-- The classifier that puts every pod in the class `q`. -/
def classifyAs (q : QOSClass) : Pod → QOSClass := fun _ => q

/-- One container with CPU request = limit = 500m and memory request = limit = 200Mi. -/
def guaranteedPod : Pod := ⟨⟨[Container.ofResources 500 500 209715200 209715200]⟩⟩

/-- One container with a CPU request of 500m and no limits. -/
def requestOnlyPod : Pod := ⟨⟨[Container.ofResources 500 0 0 0]⟩⟩

/-- Four containers, each with a CPU request of 1m and a CPU limit of `2^62` milliCPU:
every CPU limit is non-zero and their `int64` sum is zero. -/
def wrappingLimitsPod : Pod :=
  ⟨⟨List.replicate 4 (Container.ofResources 1 4611686018427387904 0 0)⟩⟩

/-! ## Go values shared by the manager and the helpers -/

/-- Go's `error` interface, seen through its `Error()` text and through
`os.IsNotExist`. A nil error is `none : Option error`. -/
structure error where
  Error : String
  IsNotExist : Bool
  deriving DecidableEq, Repr

/-- The function `errors.New`. -/
def errors.New (text : String) : error := ⟨text, false⟩

/-- The number of elements `len(s)` of a slice; `none` is the nil slice. -/
def len {α : Type} : Option (List α) → Nat
  | none => 0
  | some l => l.length

/-- The elements a `range` loop over a slice visits, in order. -/
def elems {α : Type} : Option (List α) → List α
  | none => []
  | some l => l

/-! ## `cgroup_manager_unsupported.go` -/

/-- The type `CgroupName`, a string on this build. -/
abbrev CgroupName := String

/-- The struct `CgroupConfig`: a cgroup name and its resource parameters. -/
structure CgroupConfig where
  Name : CgroupName
  ResourceParameters : Option ResourceConfig
  deriving DecidableEq, Repr

/-- The struct `unsupportedCgroupManager`, which has no field. -/
structure unsupportedCgroupManager where
  deriving DecidableEq, Repr

/-- The function `NewCgroupManager`; its argument is not looked at. -/
def NewCgroupManager {α : Type} (_ : α) : unsupportedCgroupManager := ⟨⟩

def unsupportedCgroupManager.Name (_m : unsupportedCgroupManager) (_ : CgroupName) :
    String :=
  ""

def unsupportedCgroupManager.CgroupName (_m : unsupportedCgroupManager) (_ : String) :
    cm.CgroupName :=
  ""

def unsupportedCgroupManager.Exists (_m : unsupportedCgroupManager) (_ : cm.CgroupName) :
    Bool :=
  false

def unsupportedCgroupManager.Destroy (_m : unsupportedCgroupManager)
    (_ : Option CgroupConfig) : Option error :=
  none

def unsupportedCgroupManager.Update (_m : unsupportedCgroupManager)
    (_ : Option CgroupConfig) : Option error :=
  none

def unsupportedCgroupManager.Create (_m : unsupportedCgroupManager)
    (_ : Option CgroupConfig) : Option error :=
  some (errors.New "Cgroup Manager is not supported in this build")

def unsupportedCgroupManager.Pids (_m : unsupportedCgroupManager) (_ : cm.CgroupName) :
    Option (List Int) :=
  none

def unsupportedCgroupManager.ReduceCPULimits (_m : unsupportedCgroupManager)
    (_cgroupName : cm.CgroupName) : Option error :=
  some (errors.New "Cgroup Manager is not supported in this build")

def ConvertCgroupNameToSystemd (_cgroupName : CgroupName) (_outputToCgroupFs : Bool) :
    String :=
  ""

def ConvertCgroupFsNameToSystemd (_cgroupfsName : String) : String × Option error :=
  ("", some (errors.New "Cgroup Manager is not supported in this build"))

/-- A lifecycle call on a manager. -/
inductive LifecycleCall where
  | Create (cgroupConfig : Option CgroupConfig)
  | Update (cgroupConfig : Option CgroupConfig)
  | Destroy (cgroupConfig : Option CgroupConfig)
  | ReduceCPULimits (cgroupName : CgroupName)
  deriving DecidableEq, Repr

/-- One lifecycle call on the unsupported manager: the manager after the call and the
error returned. No method assigns to the receiver, so the manager is unchanged. -/
def unsupportedCgroupManager.call (m : unsupportedCgroupManager) :
    LifecycleCall → unsupportedCgroupManager × Option error
  | LifecycleCall.Create c => (m, m.Create c)
  | LifecycleCall.Update c => (m, m.Update c)
  | LifecycleCall.Destroy c => (m, m.Destroy c)
  | LifecycleCall.ReduceCPULimits n => (m, m.ReduceCPULimits n)

/-- A sequence of lifecycle calls, run in order: the manager at the end and the errors
returned, one for each call. -/
def unsupportedCgroupManager.run (m : unsupportedCgroupManager) :
    List LifecycleCall → unsupportedCgroupManager × List (Option error)
  | [] => (m, [])
  | c :: cs => ((((m.call c).1).run cs).1, (m.call c).2 :: (((m.call c).1).run cs).2)

/-! ## `helpers_linux.go`: subsystem discovery and process enumeration

The mount enumeration of libcontainer, the file system and `strconv.Atoi` lie outside
this package and are parameters of the functions below. -/

/-- The struct `Mount` of libcontainer's cgroups package. -/
structure Mount where
  Mountpoint : String
  Root : String
  Subsystems : List String
  deriving DecidableEq, Repr

/-- The struct `CgroupSubsystems`. `Mounts` is a slice and `MountPoints` a map from
controller name to mount path; `none` is the nil slice and the nil map. -/
structure CgroupSubsystems where
  Mounts : Option (List Mount)
  MountPoints : Option (String → Option String)

/-- The value `&CgroupSubsystems{}`. -/
def CgroupSubsystems.empty : CgroupSubsystems := { Mounts := none, MountPoints := none }

/-- The map assignment `m[key] = value`. -/
def mapSet (m : String → Option String) (key value : String) : String → Option String :=
  fun k => if k = key then some value else m k

/-- The lookup of a key in a map that may be nil. -/
def mapGet (m : Option (String → Option String)) (key : String) : Option String :=
  match m with
  | none => none
  | some f => f key

/-- The inner loop of `GetCgroupSubsystems`, over `mount.Subsystems`. -/
def recordMount (mountPoints : String → Option String) (mount : Mount) :
    String → Option String :=
  mount.Subsystems.foldl (fun mp subsystem => mapSet mp subsystem mount.Mountpoint)
    mountPoints

/-- The function `GetCgroupSubsystems`: returns information about the mounted cgroup
subsystems. `GetCgroupMounts` stands for `libcontainercgroups.GetCgroupMounts`. -/
def GetCgroupSubsystems (GetCgroupMounts : Bool → Option (List Mount) × Option error) :
    CgroupSubsystems × Option error :=
  -- get all cgroup mounts.
  let allCgroups := (GetCgroupMounts true).1
  let err := (GetCgroupMounts true).2
  match err with
  | some e => (CgroupSubsystems.empty, some e)
  | none =>
    if len allCgroups = 0 then
      (CgroupSubsystems.empty, some (errors.New "failed to find cgroup mounts"))
    else
      let mountPoints := (elems allCgroups).foldl recordMount (fun _ => none)
      ({ Mounts := allCgroups, MountPoints := some mountPoints }, none)

/-- An opened file as a `bufio.Scanner` reads it: the lines that successive calls of
`Scan()` yield until it returns false, and what `Err()` holds then, `none` when the
scan stopped at the end of the file. -/
structure File where
  lines : List String
  readErr : Option error
  deriving DecidableEq, Repr

/-- The library functions `getCgroupProcs` calls: `filepath.Join`, `os.Open` and
`strconv.Atoi`. -/
structure Host where
  Join : String → String → String
  Open : String → Except error File
  Atoi : String → Except error Int

/-- The error `getCgroupProcs` builds with `fmt.Errorf` from the path of the procs file
and the error of `strconv.Atoi`. -/
def unexpectedLine (procsFile : String) (err : error) : error :=
  errors.New ("unexpected line in " ++ procsFile ++ "; could not convert to pid: "
    ++ err.Error)

/-- The scanning loop of `getCgroupProcs` over the lines still to come, `out` holding
the pids appended so far. -/
def scanProcs (Atoi : String → Except error Int) (procsFile : String) :
    List String → List Int → Option (List Int) × Option error
  | [], out => (some out, none)
  | t :: rest, out =>
    if t ≠ "" then
      match Atoi t with
      | Except.error err => (none, some (unexpectedLine procsFile err))
      | Except.ok pid => scanProcs Atoi procsFile rest (out ++ [pid])
    else
      scanProcs Atoi procsFile rest out

/-- The function `getCgroupProcs`: takes a cgroup directory name as an argument, reads
through the cgroup's procs file and returns a list of tgid's. The scanner's `Err()` is
not consulted after the loop, so `readErr` plays no part. -/
def getCgroupProcs (host : Host) (dir : String) : Option (List Int) × Option error :=
  let procsFile := host.Join dir "cgroup.procs"
  match host.Open procsFile with
  | Except.error err =>
    if err.IsNotExist then
      -- The procsFile does not exist, So no pids attached to this directory
      (some [], none)
    else
      (none, some err)
  | Except.ok f => scanProcs host.Atoi procsFile f.lines []

/-! ## Hosts and mounts used as concrete inputs -/

/-- The value of a list of decimal digits read after the value `acc`, `none` when a
character is not a digit. -/
def digitsValue : List Char → Nat → Option Nat
  | [], acc => some acc
  | c :: cs, acc =>
    if c.isDigit then digitsValue cs (acc * 10 + (c.toNat - 48)) else none

/-- The syntax error of `strconv` on the input `s`. -/
def syntaxError (s : String) : error :=
  errors.New ("strconv.ParseInt: parsing \"" ++ s ++ "\": invalid syntax")

/-- A stand-in for `strconv.Atoi` on the lines of a procs file: a non-empty line of
decimal digits is its value, any other line is a syntax error naming the line. -/
def atoiDigits (s : String) : Except error Int :=
  match s.data with
  | [] => Except.error (syntaxError s)
  | c :: cs =>
    match digitsValue (c :: cs) 0 with
    | some n => Except.ok (Int.ofNat n)
    | none => Except.error (syntaxError s)

/-- A stand-in for `filepath.Join` on a clean directory name and a file name. -/
def joinPath (dir file : String) : String := dir ++ "/" ++ file

/-- The error of `os.Open` on a missing file. -/
def enoent (path : String) : error :=
  ⟨"open " ++ path ++ ": no such file or directory", true⟩

/-- The error of `os.Open` on a file the process may not read. -/
def eacces (path : String) : error :=
  ⟨"open " ++ path ++ ": permission denied", false⟩

/-- The error of a failed `read(2)`. -/
def eio (path : String) : error :=
  ⟨"read " ++ path ++ ": input/output error", false⟩

/-- A host with one procs file, at `path`, holding `file`; every other path is
missing. -/
def hostWith (path : String) (file : File) : Host :=
  { Join := joinPath
    Open := fun p => if p = path then Except.ok file else Except.error (enoent p)
    Atoi := atoiDigits }

/-- A host on which no file exists. -/
def emptyHost : Host :=
  { Join := joinPath, Open := fun p => Except.error (enoent p), Atoi := atoiDigits }

/-- A host on which every file exists and none may be opened. -/
def deniedHost : Host :=
  { Join := joinPath, Open := fun p => Except.error (eacces p), Atoi := atoiDigits }

/-- Three mounts; the controller `cpu` is advertised by the first and by the last. -/
def sampleMounts : List Mount :=
  [⟨"/sys/fs/cgroup/cpu,cpuacct", "/", ["cpu", "cpuacct"]⟩,
   ⟨"/sys/fs/cgroup/memory", "/", ["memory"]⟩,
   ⟨"/mnt/cgroup/cpu", "/", ["cpu"]⟩]

/-- An enumeration that succeeds with the mounts `l`. -/
def enumerationOf (l : List Mount) : Bool → Option (List Mount) × Option error :=
  fun _ => (some l, none)

/-- Two containers: one with CPU request 250m, CPU limit 500m and memory limit 64Mi,
one with CPU request 100m and no limits. -/
def mixedPod : Pod :=
  ⟨⟨[Container.ofResources 250 500 0 67108864, Container.ofResources 100 0 0 0]⟩⟩

/-- The containers of `mixedPod` in the other order. -/
def mixedPodSwapped : Pod :=
  ⟨⟨[Container.ofResources 100 0 0 0, Container.ofResources 250 500 0 67108864]⟩⟩

/-- A memory quantity of `2^62` bytes (4Ei); its `MilliValue()`, which the policy never
reads for memory, is set to the largest `int64`. -/
def fourExbibytes : Quantity := ⟨9223372036854775807, 4611686018427387904, false⟩

/-- Two containers, each with CPU request = limit = 500m and memory request = limit =
`2^62` bytes: the exact sum of the memory limits is `2^63`, one more than the largest
`int64`. -/
def hugeMemoryPod : Pod :=
  ⟨⟨List.replicate 2
    ⟨⟨⟨Quantity.ofMilli 500, fourExbibytes⟩, ⟨Quantity.ofMilli 500, fourExbibytes⟩⟩⟩⟩⟩

/-! ## Machine-integer lemmas -/

theorem wrap64_eq_self {x : Int} (h0 : -9223372036854775808 ≤ x)
    (h1 : x ≤ 9223372036854775807) : wrap64 x = x := by
  unfold wrap64
  omega

theorem wrap64_lower (x : Int) : -9223372036854775808 ≤ wrap64 x := by
  unfold wrap64
  omega

theorem wrap64_upper (x : Int) : wrap64 x ≤ 9223372036854775807 := by
  unfold wrap64
  omega

theorem wrap64_add_left (a b : Int) : wrap64 (wrap64 a + b) = wrap64 (a + b) := by
  unfold wrap64
  omega

/-- On a non-negative `int64` dividend, Go's division by 1000 is the floor quotient. -/
theorem div64_thousand_of_nonneg {a : Int} (h0 : 0 ≤ a) (h1 : a ≤ 9223372036854775807) :
    div64 a 1000 = a / 1000 := by
  unfold div64
  rw [Int.tdiv_eq_ediv h0 (by decide)]
  exact wrap64_eq_self (by omega) (by omega)

/-! ## The conversions, in closed form -/

/-- For every argument, zero included, the shares are the `int64` quotient raised to
`MinShares`. -/
theorem MilliCPUToShares_eq_max (milliCPU : Int) :
    MilliCPUToShares milliCPU =
      max MinShares (div64 (mul64 milliCPU SharesPerCPU) MilliCPUToCPU) := by
  unfold MilliCPUToShares
  by_cases h : milliCPU = 0
  · subst h
    decide
  · simp only [h, if_false]
    split
    · rw [max_eq_left (by omega)]
    · rw [max_eq_right (by omega)]

theorem MinShares_le_MilliCPUToShares (milliCPU : Int) :
    MinShares ≤ MilliCPUToShares milliCPU := by
  rw [MilliCPUToShares_eq_max]
  exact le_max_left _ _

/-- For every non-zero argument the quota is the `int64` quotient raised to
`MinQuotaPeriod`, and the period is `QuotaPeriod`. -/
theorem MilliCPUToQuota_of_ne_zero {milliCPU : Int} (h : milliCPU ≠ 0) :
    MilliCPUToQuota milliCPU =
      (max MinQuotaPeriod (div64 (mul64 milliCPU QuotaPeriod) MilliCPUToCPU), QuotaPeriod) := by
  unfold MilliCPUToQuota
  simp only [h, if_false]
  split
  · rw [max_eq_left (by omega)]
  · rw [max_eq_right (by omega)]

theorem MilliCPUToQuota_zero : MilliCPUToQuota 0 = (0, 0) := by
  decide

/-! ## The loop of `ResourceConfigForPod` -/

theorem sum64_eq_sum {l : List Int} (h0 : -9223372036854775808 ≤ l.sum)
    (h1 : l.sum ≤ 9223372036854775807) : sum64 l = l.sum :=
  wrap64_eq_self h0 h1

/-- Accumulating with Go's `+=` from an `int64` start gives the exact sum reduced by
`wrap64`. -/
theorem foldl_add64 (l : List Int) (a : Int) (ha : wrap64 a = a) :
    l.foldl add64 a = wrap64 (a + l.sum) := by
  induction l generalizing a with
  | nil => simpa using ha.symm
  | cons x xs ih =>
    have hx : wrap64 (add64 a x) = add64 a x := by
      unfold add64 wrap64
      omega
    rw [List.foldl_cons, ih (add64 a x) hx, List.sum_cons]
    unfold add64
    rw [wrap64_add_left, add_assoc]

theorem foldl_step_cpuRequests (l : List Container) (t : podTotals) :
    (l.foldl podTotals.step t).cpuRequests =
      (l.map (fun c => c.Resources.Requests.Cpu.MilliValue)).foldl add64 t.cpuRequests := by
  induction l generalizing t with
  | nil => rfl
  | cons c cs ih => simp only [List.foldl_cons, List.map_cons, ih, podTotals.step]

theorem foldl_step_cpuLimits (l : List Container) (t : podTotals) :
    (l.foldl podTotals.step t).cpuLimits =
      (l.map (fun c => c.Resources.Limits.Cpu.MilliValue)).foldl add64 t.cpuLimits := by
  induction l generalizing t with
  | nil => rfl
  | cons c cs ih => simp only [List.foldl_cons, List.map_cons, ih, podTotals.step]

theorem foldl_step_memoryLimits (l : List Container) (t : podTotals) :
    (l.foldl podTotals.step t).memoryLimits =
      (l.map (fun c => c.Resources.Limits.Memory.Value)).foldl add64 t.memoryLimits := by
  induction l generalizing t with
  | nil => rfl
  | cons c cs ih => simp only [List.foldl_cons, List.map_cons, ih, podTotals.step]

theorem foldl_step_cpuLimitsDeclared (l : List Container) (t : podTotals) :
    (l.foldl podTotals.step t).cpuLimitsDeclared =
      (t.cpuLimitsDeclared && l.all (fun c => !c.Resources.Limits.Cpu.IsZero)) := by
  induction l generalizing t with
  | nil => simp
  | cons c cs ih =>
    rw [List.foldl_cons, ih]
    cases hz : c.Resources.Limits.Cpu.IsZero <;> simp [podTotals.step, hz]

theorem foldl_step_memoryLimitsDeclared (l : List Container) (t : podTotals) :
    (l.foldl podTotals.step t).memoryLimitsDeclared =
      (t.memoryLimitsDeclared && l.all (fun c => !c.Resources.Limits.Memory.IsZero)) := by
  induction l generalizing t with
  | nil => simp
  | cons c cs ih =>
    rw [List.foldl_cons, ih]
    cases hz : c.Resources.Limits.Memory.IsZero <;> simp [podTotals.step, hz]

/-- The loop variables of `ResourceConfigForPod` after the loop: the three `int64` sums
and the two flags. -/
theorem foldl_step_init (pod : Pod) :
    pod.Spec.Containers.foldl podTotals.step podTotals.init =
      ⟨sum64 (cpuRequestsOf pod), sum64 (cpuLimitsOf pod), sum64 (memoryLimitsOf pod),
       allMemoryLimitsNonZero pod, allCpuLimitsNonZero pod⟩ := by
  have h0 : wrap64 0 = 0 := by decide
  have e1 := foldl_step_cpuRequests pod.Spec.Containers podTotals.init
  have e2 := foldl_step_cpuLimits pod.Spec.Containers podTotals.init
  have e3 := foldl_step_memoryLimits pod.Spec.Containers podTotals.init
  have e4 := foldl_step_memoryLimitsDeclared pod.Spec.Containers podTotals.init
  have e5 := foldl_step_cpuLimitsDeclared pod.Spec.Containers podTotals.init
  simp only [podTotals.init] at e1 e2 e3 e4 e5
  rw [foldl_add64 _ 0 h0, zero_add] at e1 e2 e3
  rw [Bool.true_and] at e4 e5
  cases ht : pod.Spec.Containers.foldl podTotals.step podTotals.init
  simp only [podTotals.init] at ht
  rw [ht] at e1 e2 e3 e4 e5
  simp only at e1 e2 e3 e4 e5
  subst e1 e2 e3 e4 e5
  rfl

/-- The result of `ResourceConfigForPod` for a pod classified `Guaranteed`. -/
theorem ResourceConfigForPod_of_Guaranteed {GetPodQOS : Pod → QOSClass} {pod : Pod}
    (h : GetPodQOS pod = QOSClass.Guaranteed) :
    ResourceConfigForPod GetPodQOS pod =
      ⟨some (sum64 (memoryLimitsOf pod)),
       some (MilliCPUToShares (sum64 (cpuRequestsOf pod))),
       some (MilliCPUToQuota (sum64 (cpuLimitsOf pod))).1,
       some (MilliCPUToQuota (sum64 (cpuLimitsOf pod))).2⟩ := by
  unfold ResourceConfigForPod
  simp only [foldl_step_init, h]
  rfl

/-- The result of `ResourceConfigForPod` for a pod classified `Burstable`. -/
theorem ResourceConfigForPod_of_Burstable {GetPodQOS : Pod → QOSClass} {pod : Pod}
    (h : GetPodQOS pod = QOSClass.Burstable) :
    ResourceConfigForPod GetPodQOS pod =
      ⟨if allMemoryLimitsNonZero pod then some (sum64 (memoryLimitsOf pod)) else none,
       some (MilliCPUToShares (sum64 (cpuRequestsOf pod))),
       if allCpuLimitsNonZero pod then some (MilliCPUToQuota (sum64 (cpuLimitsOf pod))).1
         else none,
       if allCpuLimitsNonZero pod then some (MilliCPUToQuota (sum64 (cpuLimitsOf pod))).2
         else none⟩ := by
  unfold ResourceConfigForPod
  simp only [foldl_step_init, h]
  cases allCpuLimitsNonZero pod <;> cases allMemoryLimitsNonZero pod <;> rfl

/-- The result of `ResourceConfigForPod` for a pod classified `BestEffort`. -/
theorem ResourceConfigForPod_of_BestEffort {GetPodQOS : Pod → QOSClass} {pod : Pod}
    (h : GetPodQOS pod = QOSClass.BestEffort) :
    ResourceConfigForPod GetPodQOS pod = ⟨none, some MinShares, none, none⟩ := by
  unfold ResourceConfigForPod
  simp only [h]
  rfl

theorem allCpuLimitsNonZero_iff (pod : Pod) :
    allCpuLimitsNonZero pod = true ↔
      ∀ c ∈ pod.Spec.Containers, c.Resources.Limits.Cpu.IsZero = false := by
  simp [allCpuLimitsNonZero, List.all_eq_true]

theorem allMemoryLimitsNonZero_iff (pod : Pod) :
    allMemoryLimitsNonZero pod = true ↔
      ∀ c ∈ pod.Spec.Containers, c.Resources.Limits.Memory.IsZero = false := by
  simp [allMemoryLimitsNonZero, List.all_eq_true]

/-! ## Claims on `MilliCPUToShares` and `MilliCPUToQuota` -/

/-- C1, as stated, is false: `9007199254740992` is a non-negative `int64` whose product
with 1024 is `2^63` and wraps to `-2^63`; the code returns 2 there, while the truncated
quotient `(milliCPU*1024)/1000` is `9223372036854775`, which is 2 or more. -/
theorem MilliCPUToShares_quotient_fails_on_overflow :
    ¬ (∀ milliCPU : Int, 0 ≤ milliCPU → milliCPU ≤ maxInt64 →
        (Int.tdiv (milliCPU * 1024) 1000 < 2 → MilliCPUToShares milliCPU = 2) ∧
        (2 ≤ Int.tdiv (milliCPU * 1024) 1000 →
          MilliCPUToShares milliCPU = Int.tdiv (milliCPU * 1024) 1000)) := by
  intro h
  have h2 := (h 9007199254740992 (by decide) (by decide)).2 (by decide)
  revert h2
  decide

/-- C1, amended: for every milliCPU from 0 to `9007199254740991`, the range on which the
product `milliCPU*1024` fits in `int64`, `MilliCPUToShares milliCPU` is 2 when the
truncated quotient `(milliCPU*1024)/1000` is below 2 and is exactly that quotient when
it is 2 or more; and `MilliCPUToShares 0 = 2`. -/
theorem MilliCPUToShares_eq_quotient (milliCPU : Int) (h0 : 0 ≤ milliCPU)
    (h1 : milliCPU ≤ 9007199254740991) :
    (Int.tdiv (milliCPU * 1024) 1000 < 2 → MilliCPUToShares milliCPU = 2) ∧
    (2 ≤ Int.tdiv (milliCPU * 1024) 1000 →
      MilliCPUToShares milliCPU = Int.tdiv (milliCPU * 1024) 1000) ∧
    MilliCPUToShares 0 = 2 := by
  have hq : Int.tdiv (milliCPU * 1024) 1000 = milliCPU * 1024 / 1000 :=
    Int.tdiv_eq_ediv (by omega) (by decide)
  have hs : MilliCPUToShares milliCPU = max 2 (milliCPU * 1024 / 1000) := by
    rw [MilliCPUToShares_eq_max]
    unfold mul64 SharesPerCPU MilliCPUToCPU MinShares
    rw [wrap64_eq_self (by omega) (by omega), div64_thousand_of_nonneg (by omega) (by omega)]
  rw [hq, hs]
  refine ⟨fun h => max_eq_left (by omega), fun h => max_eq_right h, by decide⟩

/-- C1, amended, at milliCPU = 500: the quotient is 512 and so are the shares. -/
theorem MilliCPUToShares_eq_quotient_witness :
    ((0 : Int) ≤ 500 ∧ (500 : Int) ≤ 9007199254740991) ∧
    ((Int.tdiv (500 * 1024) 1000 < 2 → MilliCPUToShares 500 = 2) ∧
     (2 ≤ Int.tdiv (500 * 1024) 1000 → MilliCPUToShares 500 = Int.tdiv (500 * 1024) 1000) ∧
     MilliCPUToShares 0 = 2) :=
  ⟨by decide, MilliCPUToShares_eq_quotient 500 (by decide) (by decide)⟩

/-- C2, as stated, is false: `92233720368548` is a positive `int64` whose product with
100000 exceeds `2^63 - 1` and wraps to a negative number; the code returns the quota
1000 there, while `max(1000, milliCPU*100000/1000)` is `9223372036854800`. -/
theorem MilliCPUToQuota_max_fails_on_overflow :
    ¬ (∀ milliCPU : Int, 0 < milliCPU → milliCPU ≤ maxInt64 →
        MilliCPUToQuota milliCPU = (max 1000 (Int.tdiv (milliCPU * 100000) 1000), 100000)) := by
  intro h
  have h2 := h 92233720368548 (by decide) (by decide)
  revert h2
  decide

/-- C2, amended: for every milliCPU from 1 to `92233720368547`, the range on which the
product `milliCPU*100000` fits in `int64`, `MilliCPUToQuota milliCPU` is the pair
`(max(1000, milliCPU*100000/1000), 100000)`. -/
theorem MilliCPUToQuota_eq_max (milliCPU : Int) (h0 : 0 < milliCPU)
    (h1 : milliCPU ≤ 92233720368547) :
    MilliCPUToQuota milliCPU = (max 1000 (Int.tdiv (milliCPU * 100000) 1000), 100000) := by
  have hq : Int.tdiv (milliCPU * 100000) 1000 = milliCPU * 100000 / 1000 :=
    Int.tdiv_eq_ediv (by omega) (by decide)
  rw [hq, MilliCPUToQuota_of_ne_zero (by omega)]
  unfold mul64 QuotaPeriod MilliCPUToCPU MinQuotaPeriod
  rw [wrap64_eq_self (by omega) (by omega), div64_thousand_of_nonneg (by omega) (by omega)]

/-- C2, amended, at milliCPU = 500: the quota is 50000 and the period 100000. -/
theorem MilliCPUToQuota_eq_max_witness :
    ((0 : Int) < 500 ∧ (500 : Int) ≤ 92233720368547) ∧
    MilliCPUToQuota 500 = (max 1000 (Int.tdiv (500 * 100000) 1000), 100000) :=
  ⟨by decide, MilliCPUToQuota_eq_max 500 (by decide) (by decide)⟩

/-- C3: `MilliCPUToQuota 0 = (0, 0)`, and for every milliCPU the period returned by
`MilliCPUToQuota` is zero if and only if milliCPU is zero. -/
theorem MilliCPUToQuota_zero_iff :
    MilliCPUToQuota 0 = (0, 0) ∧
    ∀ milliCPU : Int, (MilliCPUToQuota milliCPU).2 = 0 ↔ milliCPU = 0 := by
  refine ⟨MilliCPUToQuota_zero, fun milliCPU => ⟨fun h => ?_, fun h => ?_⟩⟩
  · by_contra hne
    rw [MilliCPUToQuota_of_ne_zero hne] at h
    have hp : QuotaPeriod = 0 := h
    revert hp
    decide
  · subst h
    decide

/-- C4: for every milliCPU, so for every `int64` (negative values and values whose
product with 1024 wraps around included), `MilliCPUToShares milliCPU` is at least
`MinShares`, which is 2. -/
theorem MilliCPUToShares_ge_MinShares :
    MinShares = 2 ∧ ∀ milliCPU : Int, 2 ≤ MilliCPUToShares milliCPU :=
  ⟨rfl, fun milliCPU => MinShares_le_MilliCPUToShares milliCPU⟩

/-- C5: for every non-zero `int64` milliCPU the quota returned by `MilliCPUToQuota` is
at least `MinQuotaPeriod`, which is 1000, and the period returned is exactly
`QuotaPeriod`, which is 100000. -/
theorem MilliCPUToQuota_ge_MinQuotaPeriod (milliCPU : Int) (h : milliCPU ≠ 0) :
    (MinQuotaPeriod = 1000 ∧ QuotaPeriod = 100000) ∧
    1000 ≤ (MilliCPUToQuota milliCPU).1 ∧ (MilliCPUToQuota milliCPU).2 = 100000 := by
  rw [MilliCPUToQuota_of_ne_zero h]
  exact ⟨⟨rfl, rfl⟩, le_max_left _ _, rfl⟩

/-- C5 at milliCPU = 1, the smallest positive input: the quotient is 100 and the quota
is raised to 1000. -/
theorem MilliCPUToQuota_ge_MinQuotaPeriod_witness :
    (1 : Int) ≠ 0 ∧
    ((MinQuotaPeriod = 1000 ∧ QuotaPeriod = 100000) ∧
     1000 ≤ (MilliCPUToQuota 1).1 ∧ (MilliCPUToQuota 1).2 = 100000) :=
  ⟨by decide, MilliCPUToQuota_ge_MinQuotaPeriod 1 (by decide)⟩

/-! ## Claims on `ResourceConfigForPod` -/

/-- C6, as stated, is false. The pod of two containers with CPU request = limit = 500m
and memory request = limit = `2^62` bytes, classified `Guaranteed`, gets
`Memory = -9223372036854775808`: the `int64` sum of the two limits wraps, while the sum
of the container memory limits is `9223372036854775808`. -/
theorem ResourceConfigForPod_Guaranteed_sum_fails :
    ResourceConfigForPod (classifyAs QOSClass.Guaranteed) hugeMemoryPod =
      ⟨some (-9223372036854775808), some 1024, some 100000, some 100000⟩ ∧
    (memoryLimitsOf hugeMemoryPod).sum = 9223372036854775808 ∧
    ¬ (∀ (GetPodQOS : Pod → QOSClass) (pod : Pod),
        GetPodQOS pod = QOSClass.Guaranteed →
        (ResourceConfigForPod GetPodQOS pod).CpuShares =
            some (MilliCPUToShares (cpuRequestsOf pod).sum) ∧
        (ResourceConfigForPod GetPodQOS pod).CpuQuota =
            some (MilliCPUToQuota (cpuLimitsOf pod).sum).1 ∧
        (ResourceConfigForPod GetPodQOS pod).CpuPeriod =
            some (MilliCPUToQuota (cpuLimitsOf pod).sum).2 ∧
        (ResourceConfigForPod GetPodQOS pod).Memory = some (memoryLimitsOf pod).sum) := by
  refine ⟨by decide, by decide, fun h => ?_⟩
  have h2 := (h (classifyAs QOSClass.Guaranteed) hugeMemoryPod rfl).2.2.2
  revert h2
  decide

/-- C6, amended: for every pod classified `Guaranteed`, `ResourceConfigForPod` returns a
config with all four fields present, `CpuShares = MilliCPUToShares` of the summed CPU
requests, `(CpuQuota, CpuPeriod) = MilliCPUToQuota` of the summed CPU limits and
`Memory` the summed memory limits, each sum being the `int64` sum the loop accumulates,
that is the exact sum reduced modulo `2^64` into the `int64` range; whenever the three
exact sums fit in `int64` the fields are those of the exact sums. For one container
with CPU request = limit = 500m and memory limit 200Mi the config is `CpuShares = 512`,
`CpuQuota = 50000`, `CpuPeriod = 100000`, `Memory = 209715200`. -/
theorem ResourceConfigForPod_Guaranteed (GetPodQOS : Pod → QOSClass) (pod : Pod)
    (h : GetPodQOS pod = QOSClass.Guaranteed) :
    (ResourceConfigForPod GetPodQOS pod).CpuShares =
        some (MilliCPUToShares (sum64 (cpuRequestsOf pod))) ∧
    (ResourceConfigForPod GetPodQOS pod).CpuQuota =
        some (MilliCPUToQuota (sum64 (cpuLimitsOf pod))).1 ∧
    (ResourceConfigForPod GetPodQOS pod).CpuPeriod =
        some (MilliCPUToQuota (sum64 (cpuLimitsOf pod))).2 ∧
    (ResourceConfigForPod GetPodQOS pod).Memory = some (sum64 (memoryLimitsOf pod)) ∧
    (∀ memRequest : Int,
      pod.Spec.Containers = [Container.ofResources 500 500 memRequest 209715200] →
      ResourceConfigForPod GetPodQOS pod =
        ⟨some 209715200, some 512, some 50000, some 100000⟩) ∧
    ((minInt64 ≤ (cpuRequestsOf pod).sum ∧ (cpuRequestsOf pod).sum ≤ maxInt64) →
     (minInt64 ≤ (cpuLimitsOf pod).sum ∧ (cpuLimitsOf pod).sum ≤ maxInt64) →
     (minInt64 ≤ (memoryLimitsOf pod).sum ∧ (memoryLimitsOf pod).sum ≤ maxInt64) →
      ResourceConfigForPod GetPodQOS pod =
        ⟨some (memoryLimitsOf pod).sum,
         some (MilliCPUToShares (cpuRequestsOf pod).sum),
         some (MilliCPUToQuota (cpuLimitsOf pod).sum).1,
         some (MilliCPUToQuota (cpuLimitsOf pod).sum).2⟩) := by
  rw [ResourceConfigForPod_of_Guaranteed h]
  refine ⟨rfl, rfl, rfl, rfl, fun memRequest hc => ?_, fun hr hl hm => ?_⟩
  · simp only [cpuRequestsOf, cpuLimitsOf, memoryLimitsOf, hc, List.map_cons, List.map_nil,
      Container.ofResources, Quantity.ofMilli, Quantity.ofValue]
    decide
  · unfold minInt64 maxInt64 at hr hl hm
    rw [sum64_eq_sum hr.1 hr.2, sum64_eq_sum hl.1 hl.2, sum64_eq_sum hm.1 hm.2]

/-- C6, amended, on the pod of the example, classified `Guaranteed`: its sums fit in
`int64` and the config is the one of the example. -/
theorem ResourceConfigForPod_Guaranteed_witness :
    classifyAs QOSClass.Guaranteed guaranteedPod = QOSClass.Guaranteed ∧
    ResourceConfigForPod (classifyAs QOSClass.Guaranteed) guaranteedPod =
      ⟨some 209715200, some 512, some 50000, some 100000⟩ ∧
    ResourceConfigForPod (classifyAs QOSClass.Guaranteed) guaranteedPod =
      ⟨some (memoryLimitsOf guaranteedPod).sum,
       some (MilliCPUToShares (cpuRequestsOf guaranteedPod).sum),
       some (MilliCPUToQuota (cpuLimitsOf guaranteedPod).sum).1,
       some (MilliCPUToQuota (cpuLimitsOf guaranteedPod).sum).2⟩ :=
  ⟨rfl,
   (ResourceConfigForPod_Guaranteed (classifyAs QOSClass.Guaranteed) guaranteedPod
     rfl).2.2.2.2.1 209715200 rfl,
   (ResourceConfigForPod_Guaranteed (classifyAs QOSClass.Guaranteed) guaranteedPod
     rfl).2.2.2.2.2 (by decide) (by decide) (by decide)⟩

/-- C7: for every pod classified `Burstable`, `ResourceConfigForPod` sets
`CpuShares = MilliCPUToShares` of the (`int64`) sum of the CPU requests; `CpuQuota` and
`CpuPeriod` are present if and only if every container has a non-zero CPU limit;
`Memory` is present if and only if every container has a non-zero memory limit. So for
a single container without limits `CpuShares` is set and `CpuQuota`, `CpuPeriod` and
`Memory` are absent. -/
theorem ResourceConfigForPod_Burstable (GetPodQOS : Pod → QOSClass) (pod : Pod)
    (h : GetPodQOS pod = QOSClass.Burstable) :
    (ResourceConfigForPod GetPodQOS pod).CpuShares =
        some (MilliCPUToShares (sum64 (cpuRequestsOf pod))) ∧
    ((ResourceConfigForPod GetPodQOS pod).CpuQuota.isSome = true ↔
        ∀ c ∈ pod.Spec.Containers, c.Resources.Limits.Cpu.IsZero = false) ∧
    ((ResourceConfigForPod GetPodQOS pod).CpuPeriod.isSome = true ↔
        ∀ c ∈ pod.Spec.Containers, c.Resources.Limits.Cpu.IsZero = false) ∧
    ((ResourceConfigForPod GetPodQOS pod).Memory.isSome = true ↔
        ∀ c ∈ pod.Spec.Containers, c.Resources.Limits.Memory.IsZero = false) ∧
    (∀ c : Container, pod.Spec.Containers = [c] →
      c.Resources.Limits.Cpu.IsZero = true → c.Resources.Limits.Memory.IsZero = true →
      (ResourceConfigForPod GetPodQOS pod).CpuShares.isSome = true ∧
      (ResourceConfigForPod GetPodQOS pod).CpuQuota = none ∧
      (ResourceConfigForPod GetPodQOS pod).CpuPeriod = none ∧
      (ResourceConfigForPod GetPodQOS pod).Memory = none) := by
  rw [ResourceConfigForPod_of_Burstable h]
  refine ⟨rfl, ?_, ?_, ?_, fun c hc hcpu hmem => ?_⟩
  · rw [← allCpuLimitsNonZero_iff]
    cases allCpuLimitsNonZero pod <;> simp
  · rw [← allCpuLimitsNonZero_iff]
    cases allCpuLimitsNonZero pod <;> simp
  · rw [← allMemoryLimitsNonZero_iff]
    cases allMemoryLimitsNonZero pod <;> simp
  · have h1 : allCpuLimitsNonZero pod = false := by
      simp [allCpuLimitsNonZero, hc, hcpu]
    have h2 : allMemoryLimitsNonZero pod = false := by
      simp [allMemoryLimitsNonZero, hc, hmem]
    simp [h1, h2]

/-- C7 on a pod of one container with a CPU request and no limits, classified
`Burstable`. -/
theorem ResourceConfigForPod_Burstable_witness :
    classifyAs QOSClass.Burstable requestOnlyPod = QOSClass.Burstable ∧
    (ResourceConfigForPod (classifyAs QOSClass.Burstable) requestOnlyPod).CpuShares
      = some 512 ∧
    (ResourceConfigForPod (classifyAs QOSClass.Burstable) requestOnlyPod).CpuQuota = none ∧
    (ResourceConfigForPod (classifyAs QOSClass.Burstable) requestOnlyPod).CpuPeriod = none ∧
    (ResourceConfigForPod (classifyAs QOSClass.Burstable) requestOnlyPod).Memory = none :=
  ⟨rfl,
   (ResourceConfigForPod_Burstable (classifyAs QOSClass.Burstable) requestOnlyPod rfl).1.trans
     (by decide),
   ((ResourceConfigForPod_Burstable (classifyAs QOSClass.Burstable) requestOnlyPod
     rfl).2.2.2.2 (Container.ofResources 500 0 0 0) rfl rfl rfl).2⟩

/-- C8: for every pod classified `BestEffort`, whatever requests and limits its
containers carry, `ResourceConfigForPod` returns a config whose `CpuShares` is present
and equal to 2, which is `MinShares`, and whose `CpuQuota`, `CpuPeriod` and `Memory` are
absent. -/
theorem ResourceConfigForPod_BestEffort (GetPodQOS : Pod → QOSClass) (pod : Pod)
    (h : GetPodQOS pod = QOSClass.BestEffort) :
    MinShares = 2 ∧
    (ResourceConfigForPod GetPodQOS pod).CpuShares = some 2 ∧
    (ResourceConfigForPod GetPodQOS pod).CpuQuota = none ∧
    (ResourceConfigForPod GetPodQOS pod).CpuPeriod = none ∧
    (ResourceConfigForPod GetPodQOS pod).Memory = none := by
  rw [ResourceConfigForPod_of_BestEffort h]
  exact ⟨rfl, rfl, rfl, rfl, rfl⟩

/-- C8 on a pod whose container declares requests and limits, classified
`BestEffort`. -/
theorem ResourceConfigForPod_BestEffort_witness :
    classifyAs QOSClass.BestEffort guaranteedPod = QOSClass.BestEffort ∧
    (MinShares = 2 ∧
     (ResourceConfigForPod (classifyAs QOSClass.BestEffort) guaranteedPod).CpuShares
       = some 2 ∧
     (ResourceConfigForPod (classifyAs QOSClass.BestEffort) guaranteedPod).CpuQuota
       = none ∧
     (ResourceConfigForPod (classifyAs QOSClass.BestEffort) guaranteedPod).CpuPeriod
       = none ∧
     (ResourceConfigForPod (classifyAs QOSClass.BestEffort) guaranteedPod).Memory
       = none) :=
  ⟨rfl, ResourceConfigForPod_BestEffort (classifyAs QOSClass.BestEffort) guaranteedPod rfl⟩

/-- C9, as stated, is false. A pod classified `Guaranteed` whose only container has no
CPU limit gets `CpuQuota = 0` and `CpuPeriod = 0`, both present: the summed limit is 0
and `MilliCPUToQuota 0 = (0, 0)`. The same happens to a pod classified `Burstable` whose
four containers each have the non-zero CPU limit `2^62` milliCPU, the `int64` sum of
which is 0. -/
theorem ResourceConfigForPod_quota_floor_fails :
    ResourceConfigForPod (classifyAs QOSClass.Guaranteed) requestOnlyPod =
      ⟨some 0, some 512, some 0, some 0⟩ ∧
    ResourceConfigForPod (classifyAs QOSClass.Burstable) wrappingLimitsPod =
      ⟨none, some 4, some 0, some 0⟩ ∧
    ¬ (∀ (GetPodQOS : Pod → QOSClass) (pod : Pod),
        ((ResourceConfigForPod GetPodQOS pod).CpuQuota.isSome = true ↔
          (ResourceConfigForPod GetPodQOS pod).CpuPeriod.isSome = true) ∧
        ∀ q : Int, (ResourceConfigForPod GetPodQOS pod).CpuQuota = some q →
          1000 ≤ q ∧ (ResourceConfigForPod GetPodQOS pod).CpuPeriod = some 100000) := by
  refine ⟨by decide, by decide, fun h => ?_⟩
  have h2 := ((h (classifyAs QOSClass.Guaranteed) requestOnlyPod).2 0 (by decide)).1
  revert h2
  decide

/-- C9, amended: in every `ResourceConfig` returned by `ResourceConfigForPod`, for every
pod and every QoS class, `CpuQuota` is present exactly when `CpuPeriod` is present, and
whenever `CpuQuota` is present and the (`int64`) sum of the containers' CPU limits is
not zero, `CpuQuota` is at least 1000, which is `MinQuotaPeriod`, and `CpuPeriod` is
100000, which is `QuotaPeriod`. -/
theorem ResourceConfigForPod_quota_period :
    (MinQuotaPeriod = 1000 ∧ QuotaPeriod = 100000) ∧
    ∀ (GetPodQOS : Pod → QOSClass) (pod : Pod),
      ((ResourceConfigForPod GetPodQOS pod).CpuQuota.isSome = true ↔
        (ResourceConfigForPod GetPodQOS pod).CpuPeriod.isSome = true) ∧
      ∀ q : Int, (ResourceConfigForPod GetPodQOS pod).CpuQuota = some q →
        sum64 (cpuLimitsOf pod) ≠ 0 →
        1000 ≤ q ∧ (ResourceConfigForPod GetPodQOS pod).CpuPeriod = some 100000 := by
  refine ⟨⟨rfl, rfl⟩, fun GetPodQOS pod => ?_⟩
  have key : ∀ q : Int, (MilliCPUToQuota (sum64 (cpuLimitsOf pod))).1 = q →
      sum64 (cpuLimitsOf pod) ≠ 0 →
      1000 ≤ q ∧ (MilliCPUToQuota (sum64 (cpuLimitsOf pod))).2 = 100000 := by
    intro q hq hne
    rw [MilliCPUToQuota_of_ne_zero hne] at hq ⊢
    subst hq
    exact ⟨le_max_left _ _, rfl⟩
  cases hc : GetPodQOS pod with
  | Guaranteed =>
    rw [ResourceConfigForPod_of_Guaranteed hc]
    refine ⟨by simp, fun q hq hne => ?_⟩
    have hk := key q (Option.some.inj hq) hne
    exact ⟨hk.1, congrArg some hk.2⟩
  | Burstable =>
    rw [ResourceConfigForPod_of_Burstable hc]
    cases hd : allCpuLimitsNonZero pod
    · simp
    · refine ⟨by simp, fun q hq hne => ?_⟩
      have hk := key q (Option.some.inj hq) hne
      exact ⟨hk.1, congrArg some hk.2⟩
  | BestEffort =>
    rw [ResourceConfigForPod_of_BestEffort hc]
    simp

/-- C10: in every `ResourceConfig` returned by `ResourceConfigForPod`, for every pod
(any number of containers, any requests) and every QoS class, `CpuShares` is present
and is at least 2, which is `MinShares`. -/
theorem ResourceConfigForPod_CpuShares_ge_MinShares :
    MinShares = 2 ∧
    ∀ (GetPodQOS : Pod → QOSClass) (pod : Pod),
      ∃ shares : Int,
        (ResourceConfigForPod GetPodQOS pod).CpuShares = some shares ∧ 2 ≤ shares := by
  refine ⟨rfl, fun GetPodQOS pod => ?_⟩
  cases hc : GetPodQOS pod with
  | Guaranteed =>
    rw [ResourceConfigForPod_of_Guaranteed hc]
    exact ⟨_, rfl, MinShares_le_MilliCPUToShares _⟩
  | Burstable =>
    rw [ResourceConfigForPod_of_Burstable hc]
    exact ⟨_, rfl, MinShares_le_MilliCPUToShares _⟩
  | BestEffort =>
    rw [ResourceConfigForPod_of_BestEffort hc]
    exact ⟨2, rfl, le_refl _⟩

/-! ## Claims on the unsupported manager -/

/-- C11: on the unsupported manager, for every argument, `Exists` returns false,
`Destroy` and `Update` return no error, `Create` and `ReduceCPULimits` return the same
fixed error "Cgroup Manager is not supported in this build", `Pids` returns the nil
list, which is empty, `Name`, `CgroupName` and `ConvertCgroupNameToSystemd` return the
empty string, and `ConvertCgroupFsNameToSystemd` returns the empty string together with
an error. -/
theorem unsupportedCgroupManager_results (m : unsupportedCgroupManager)
    (name : CgroupName) (path : String) (config : Option CgroupConfig)
    (outputToCgroupFs : Bool) :
    m.Exists name = false ∧
    m.Destroy config = none ∧
    m.Update config = none ∧
    m.Create config = some (errors.New "Cgroup Manager is not supported in this build") ∧
    m.ReduceCPULimits name = m.Create config ∧
    (m.Pids name = none ∧ len (m.Pids name) = 0) ∧
    m.Name name = "" ∧
    m.CgroupName path = "" ∧
    ConvertCgroupNameToSystemd name outputToCgroupFs = "" ∧
    (ConvertCgroupFsNameToSystemd path).1 = "" ∧
    (ConvertCgroupFsNameToSystemd path).2 =
      some (errors.New "Cgroup Manager is not supported in this build") :=
  ⟨rfl, rfl, rfl, rfl, rfl, ⟨rfl, rfl⟩, rfl, rfl, rfl, rfl, rfl⟩

/-- C12: on the unsupported manager every cgroup stays absent under every sequence of
lifecycle calls: after any finite sequence of `Create`, `Update`, `Destroy` and
`ReduceCPULimits` calls on any names, `Exists` is false for every name, `Update`
returns no error (also before any `Create`, the sequence being empty), and a `Destroy`
followed at once by a second `Destroy` returns no error both times. -/
theorem unsupportedCgroupManager_stays_absent (calls : List LifecycleCall)
    (name : CgroupName) (config : Option CgroupConfig) :
    ((NewCgroupManager ()).run calls).1.Exists name = false ∧
    ((NewCgroupManager ()).run calls).1.Update config = none ∧
    (NewCgroupManager ()).Update config = none ∧
    (((NewCgroupManager ()).run calls).1.run
      [LifecycleCall.Destroy config, LifecycleCall.Destroy config]).2 = [none, none] ∧
    (((NewCgroupManager ()).run calls).1.run
      [LifecycleCall.Destroy config, LifecycleCall.Destroy config]).1.Exists name = false :=
  ⟨rfl, rfl, rfl, rfl, rfl⟩

/-! ## The scanning loop of `getCgroupProcs` -/

theorem scanProcs_of_valid (Atoi : String → Except error Int) (procsFile : String)
    (lines : List String) (pids out : List Int)
    (h : (lines.filter (fun t => t ≠ "")).map Atoi = pids.map Except.ok) :
    scanProcs Atoi procsFile lines out = (some (out ++ pids), none) := by
  induction lines generalizing pids out with
  | nil =>
    cases pids with
    | nil => simp [scanProcs]
    | cons n ns => simp at h
  | cons t rest ih =>
    by_cases ht : t = ""
    · subst ht
      simp only [scanProcs, ne_eq, not_true_eq_false, if_false]
      exact ih pids out (by simpa using h)
    · have hf : (t :: rest).filter (fun t => t ≠ "") = t :: rest.filter (fun t => t ≠ "") := by
        simp [ht]
      rw [hf] at h
      cases pids with
      | nil => simp at h
      | cons n ns =>
        simp only [List.map_cons, List.cons.injEq] at h
        simp only [scanProcs, ne_eq, ht, not_false_eq_true, if_true, h.1]
        rw [ih ns (out ++ [n]) h.2]
        simp

theorem scanProcs_of_invalid (Atoi : String → Except error Int) (procsFile : String)
    (lines : List String) (out good : List Int) (pre post : List String) (t : String)
    (err : error)
    (hl : lines.filter (fun t => t ≠ "") = pre ++ t :: post)
    (hpre : pre.map Atoi = good.map Except.ok) (ht : Atoi t = Except.error err) :
    scanProcs Atoi procsFile lines out = (none, some (unexpectedLine procsFile err)) := by
  induction lines generalizing out good pre with
  | nil => simp at hl
  | cons x rest ih =>
    by_cases hx : x = ""
    · subst hx
      simp only [scanProcs, ne_eq, not_true_eq_false, if_false]
      exact ih out good pre (by simpa using hl) hpre
    · have hf : (x :: rest).filter (fun t => t ≠ "") = x :: rest.filter (fun t => t ≠ "") := by
        simp [hx]
      rw [hf] at hl
      cases pre with
      | nil =>
        simp only [List.nil_append, List.cons.injEq] at hl
        obtain ⟨hxt, _⟩ := hl
        subst hxt
        simp only [scanProcs, ne_eq, hx, not_false_eq_true, if_true, ht]
      | cons y pre1 =>
        simp only [List.cons_append, List.cons.injEq] at hl
        obtain ⟨hxy, hl2⟩ := hl
        subst hxy
        cases good with
        | nil => simp at hpre
        | cons g good1 =>
          simp only [List.map_cons, List.cons.injEq] at hpre
          simp only [scanProcs, ne_eq, hx, not_false_eq_true, if_true, hpre.1]
          exact ih (out ++ [g]) good1 pre1 hl2 hpre.2

/-- The non-blank lines of a file are all valid, or there is a first one that is not. -/
theorem valid_or_first_invalid (Atoi : String → Except error Int) (l : List String) :
    (∃ pids : List Int, l.map Atoi = pids.map Except.ok) ∨
    (∃ (good : List Int) (pre post : List String) (t : String) (err : error),
      l = pre ++ t :: post ∧ pre.map Atoi = good.map Except.ok ∧
      Atoi t = Except.error err) := by
  induction l with
  | nil => exact Or.inl ⟨[], rfl⟩
  | cons x xs ih =>
    cases hx : Atoi x with
    | error err => exact Or.inr ⟨[], [], xs, x, err, rfl, rfl, hx⟩
    | ok n =>
      rcases ih with ⟨pids, hp⟩ | ⟨good, pre, post, t, err, hl, hpre, ht⟩
      · exact Or.inl ⟨n :: pids, by simp [hx, hp]⟩
      · exact Or.inr ⟨n :: good, x :: pre, post, t, err, by simp [hl], by simp [hx, hpre], ht⟩

/-! ## Claims on `getCgroupProcs` -/

/-- C13: for every directory `dir` in which the file `dir/cgroup.procs` does not exist,
so that `os.Open` fails with an error for which `os.IsNotExist` holds, `getCgroupProcs`
returns an empty list and no error. -/
theorem getCgroupProcs_of_not_exist (host : Host) (dir : String) (err : error)
    (h : host.Open (host.Join dir "cgroup.procs") = Except.error err)
    (hne : err.IsNotExist = true) :
    getCgroupProcs host dir = (some [], none) := by
  unfold getCgroupProcs
  simp only [h, hne, if_true]

/-- C13 on a host without any file: the directory does not exist either. -/
theorem getCgroupProcs_of_not_exist_witness :
    (emptyHost.Open (emptyHost.Join "/sys/fs/cgroup/cpu/gone" "cgroup.procs") =
        Except.error (enoent "/sys/fs/cgroup/cpu/gone/cgroup.procs") ∧
      (enoent "/sys/fs/cgroup/cpu/gone/cgroup.procs").IsNotExist = true) ∧
    getCgroupProcs emptyHost "/sys/fs/cgroup/cpu/gone" = (some [], none) :=
  ⟨⟨rfl, rfl⟩, getCgroupProcs_of_not_exist emptyHost "/sys/fs/cgroup/cpu/gone"
    (enoent "/sys/fs/cgroup/cpu/gone/cgroup.procs") rfl rfl⟩

/-- C14: for every procs file that opens, `getCgroupProcs` skips the blank (empty) lines
and parses each remaining line with `strconv.Atoi`. If every non-blank line is a valid
integer it returns exactly those integers, in file order, and no error. Otherwise it
returns no list and the error "unexpected line in PATH; could not convert to pid: ERR",
where PATH is the path of the procs file and ERR the text of the error of `Atoi` on the
first non-blank line that is not a valid integer. One of the two cases always applies. -/
theorem getCgroupProcs_of_lines (host : Host) (dir : String) (f : File)
    (h : host.Open (host.Join dir "cgroup.procs") = Except.ok f) :
    (∀ pids : List Int,
      (f.lines.filter (fun t => t ≠ "")).map host.Atoi = pids.map Except.ok →
      getCgroupProcs host dir = (some pids, none)) ∧
    (∀ (good : List Int) (pre post : List String) (t : String) (err : error),
      f.lines.filter (fun t => t ≠ "") = pre ++ t :: post →
      pre.map host.Atoi = good.map Except.ok →
      host.Atoi t = Except.error err →
      getCgroupProcs host dir =
        (none, some (errors.New ("unexpected line in " ++ host.Join dir "cgroup.procs"
          ++ "; could not convert to pid: " ++ err.Error)))) ∧
    ((∃ pids : List Int,
        (f.lines.filter (fun t => t ≠ "")).map host.Atoi = pids.map Except.ok) ∨
     (∃ (good : List Int) (pre post : List String) (t : String) (err : error),
        f.lines.filter (fun t => t ≠ "") = pre ++ t :: post ∧
        pre.map host.Atoi = good.map Except.ok ∧ host.Atoi t = Except.error err)) := by
  refine ⟨fun pids hp => ?_, fun good pre post t err hl hpre ht => ?_,
    valid_or_first_invalid host.Atoi _⟩
  · unfold getCgroupProcs
    simp only [h]
    rw [scanProcs_of_valid host.Atoi _ f.lines pids [] hp]
    simp
  · unfold getCgroupProcs
    simp only [h]
    rw [scanProcs_of_invalid host.Atoi _ f.lines [] good pre post t err hl hpre ht]
    rfl

/-- C14 on a procs file with the lines "12", "", "ab", "34", "zz": the pid 12 is read,
the blank line is skipped, and the error names the path and the line "ab". -/
theorem getCgroupProcs_of_lines_witness :
    (hostWith "/c/cgroup.procs" ⟨["12", "", "ab", "34", "zz"], none⟩).Open
        ((hostWith "/c/cgroup.procs" ⟨["12", "", "ab", "34", "zz"], none⟩).Join "/c"
          "cgroup.procs") =
      Except.ok ⟨["12", "", "ab", "34", "zz"], none⟩ ∧
    getCgroupProcs (hostWith "/c/cgroup.procs" ⟨["12", "", "ab", "34", "zz"], none⟩) "/c" =
      (none, some (errors.New ("unexpected line in " ++ "/c/cgroup.procs"
        ++ "; could not convert to pid: "
        ++ "strconv.ParseInt: parsing \"ab\": invalid syntax"))) :=
  ⟨rfl,
   (getCgroupProcs_of_lines (hostWith "/c/cgroup.procs" ⟨["12", "", "ab", "34", "zz"], none⟩)
      "/c" ⟨["12", "", "ab", "34", "zz"], none⟩ rfl).2.1 [12] ["12"] ["34", "zz"] "ab"
      (syntaxError "ab") (by decide) rfl rfl⟩

/-- C15, evaluated: on a procs file that opens, yields the line "12" and then fails to
read with an I/O error, `getCgroupProcs` returns the pids read so far, `[12]`, and no
error: the error of the scanner is dropped. An error of `os.Open` other than
non-existence is returned as it is, with no list. -/
theorem getCgroupProcs_drops_read_error :
    getCgroupProcs (hostWith "/c/cgroup.procs" ⟨["12"], some (eio "/c/cgroup.procs")⟩) "/c" =
      (some [12], none) ∧
    getCgroupProcs deniedHost "/c" = (none, some (eacces "/c/cgroup.procs")) := by
  constructor <;> decide

/-! ## The loops of `GetCgroupSubsystems` -/

theorem foldl_mapSet_apply (value : String) (subsystems : List String)
    (mp : String → Option String) (s : String) :
    (subsystems.foldl (fun mp subsystem => mapSet mp subsystem value) mp) s =
      if s ∈ subsystems then some value else mp s := by
  induction subsystems generalizing mp with
  | nil => simp
  | cons x xs ih =>
    rw [List.foldl_cons, ih]
    by_cases hxs : s ∈ xs
    · simp [hxs]
    · by_cases hx : s = x
      · simp [hx, mapSet]
      · simp [hxs, hx, mapSet]

theorem recordMount_apply (mp : String → Option String) (mount : Mount) (s : String) :
    recordMount mp mount s = if s ∈ mount.Subsystems then some mount.Mountpoint else mp s :=
  foldl_mapSet_apply mount.Mountpoint mount.Subsystems mp s

/-- Mounts that do not advertise a controller leave its entry as it was. -/
theorem foldl_recordMount_of_not_mem (l : List Mount) (mp : String → Option String)
    (s : String) (h : ∀ m ∈ l, s ∉ m.Subsystems) :
    (l.foldl recordMount mp) s = mp s := by
  induction l generalizing mp with
  | nil => rfl
  | cons m ms ih =>
    rw [List.foldl_cons, ih _ (fun m1 h1 => h m1 (List.mem_cons_of_mem _ h1)),
      recordMount_apply, if_neg (h m (List.mem_cons_self _ _))]

/-- The last mount that advertises a controller decides its entry. -/
theorem foldl_recordMount_of_last (pre post : List Mount) (m : Mount)
    (mp : String → Option String) (s : String) (hm : s ∈ m.Subsystems)
    (hpost : ∀ m1 ∈ post, s ∉ m1.Subsystems) :
    ((pre ++ m :: post).foldl recordMount mp) s = some m.Mountpoint := by
  rw [List.foldl_append, List.foldl_cons, foldl_recordMount_of_not_mem post _ s hpost,
    recordMount_apply, if_pos hm]

/-- A controller advertised by some mount, or already in the map, is in the map after
the loop. -/
theorem foldl_recordMount_isSome (l : List Mount) (mp : String → Option String)
    (s : String) (h : (∃ m ∈ l, s ∈ m.Subsystems) ∨ (mp s).isSome = true) :
    ((l.foldl recordMount mp) s).isSome = true := by
  induction l generalizing mp with
  | nil =>
    rcases h with ⟨m, hm, _⟩ | h
    · simp at hm
    · exact h
  | cons m ms ih =>
    rw [List.foldl_cons]
    apply ih
    by_cases hs : s ∈ m.Subsystems
    · right
      rw [recordMount_apply, if_pos hs]
      rfl
    · rcases h with ⟨m1, hm1, hs1⟩ | h
      · rcases List.mem_cons.mp hm1 with heq | hmem
        · subst heq
          exact absurd hs1 hs
        · exact Or.inl ⟨m1, hmem, hs1⟩
      · right
        rw [recordMount_apply, if_neg hs]
        exact h

/-- The result of `GetCgroupSubsystems` when the enumeration succeeds with at least one
mount. -/
theorem GetCgroupSubsystems_of_mounts
    {GetCgroupMounts : Bool → Option (List Mount) × Option error} {l : List Mount}
    (hne : l ≠ []) (h : GetCgroupMounts true = (some l, none)) :
    GetCgroupSubsystems GetCgroupMounts =
      (⟨some l, some (l.foldl recordMount (fun _ => none))⟩, none) := by
  have hlen : ¬ l.length = 0 := fun h0 => hne (List.length_eq_zero.mp h0)
  unfold GetCgroupSubsystems
  simp only [h, len, elems, hlen, if_false]

/-- The result of `GetCgroupSubsystems` when the enumeration fails. -/
theorem GetCgroupSubsystems_of_error
    {GetCgroupMounts : Bool → Option (List Mount) × Option error} {e : error}
    (h : (GetCgroupMounts true).2 = some e) :
    GetCgroupSubsystems GetCgroupMounts = (CgroupSubsystems.empty, some e) := by
  unfold GetCgroupSubsystems
  simp only [h]

/-- The result of `GetCgroupSubsystems` when the enumeration succeeds with no mount. -/
theorem GetCgroupSubsystems_of_no_mounts
    {GetCgroupMounts : Bool → Option (List Mount) × Option error}
    (h : (GetCgroupMounts true).2 = none) (hlen : len (GetCgroupMounts true).1 = 0) :
    GetCgroupSubsystems GetCgroupMounts =
      (CgroupSubsystems.empty, some (errors.New "failed to find cgroup mounts")) := by
  unfold GetCgroupSubsystems
  simp only [h, hlen, if_true]

/-- No error is returned when the enumeration succeeds with at least one mount. -/
theorem GetCgroupSubsystems_of_some_mounts
    {GetCgroupMounts : Bool → Option (List Mount) × Option error}
    (h : (GetCgroupMounts true).2 = none) (hlen : ¬ len (GetCgroupMounts true).1 = 0) :
    (GetCgroupSubsystems GetCgroupMounts).2 = none := by
  unfold GetCgroupSubsystems
  simp only [h, hlen, if_false]

/-! ## Claims on `GetCgroupSubsystems` -/

/-- C16: for every non-empty list of cgroup mounts returned by the enumeration,
`GetCgroupSubsystems` succeeds with `Mounts` equal to that list and `MountPoints` a map
whose keys are exactly the controller names advertised by some mount and whose value
for each controller is the mount path of the last mount in enumeration order that
advertises it. -/
theorem GetCgroupSubsystems_last_write_wins
    (GetCgroupMounts : Bool → Option (List Mount) × Option error) (l : List Mount)
    (hne : l ≠ []) (h : GetCgroupMounts true = (some l, none)) :
    (GetCgroupSubsystems GetCgroupMounts).2 = none ∧
    (GetCgroupSubsystems GetCgroupMounts).1.Mounts = some l ∧
    (GetCgroupSubsystems GetCgroupMounts).1.MountPoints.isSome = true ∧
    (∀ s : String,
      (mapGet (GetCgroupSubsystems GetCgroupMounts).1.MountPoints s).isSome = true ↔
        ∃ m ∈ l, s ∈ m.Subsystems) ∧
    (∀ (s : String) (pre post : List Mount) (m : Mount),
      l = pre ++ m :: post → s ∈ m.Subsystems → (∀ m1 ∈ post, s ∉ m1.Subsystems) →
      mapGet (GetCgroupSubsystems GetCgroupMounts).1.MountPoints s = some m.Mountpoint) := by
  rw [GetCgroupSubsystems_of_mounts hne h]
  refine ⟨rfl, rfl, rfl, fun s => ⟨fun hs => ?_, fun hs => ?_⟩,
    fun s pre post m hl hm hpost => ?_⟩
  · by_contra hno
    have hnone : ∀ m ∈ l, s ∉ m.Subsystems := fun m hm hsm => hno ⟨m, hm, hsm⟩
    simp only [mapGet] at hs
    rw [foldl_recordMount_of_not_mem l _ s hnone] at hs
    exact absurd hs (by simp)
  · exact foldl_recordMount_isSome l _ s (Or.inl hs)
  · subst hl
    exact foldl_recordMount_of_last pre post m _ s hm hpost

/-- C16 on three mounts of which the first and the last advertise `cpu`: the entry of
`cpu` is the path of the last. -/
theorem GetCgroupSubsystems_last_write_wins_witness :
    (sampleMounts ≠ [] ∧ enumerationOf sampleMounts true = (some sampleMounts, none)) ∧
    mapGet (GetCgroupSubsystems (enumerationOf sampleMounts)).1.MountPoints "cpu" =
      some "/mnt/cgroup/cpu" :=
  ⟨⟨by decide, rfl⟩,
   (GetCgroupSubsystems_last_write_wins (enumerationOf sampleMounts) sampleMounts
      (by decide) rfl).2.2.2.2 "cpu"
      [⟨"/sys/fs/cgroup/cpu,cpuacct", "/", ["cpu", "cpuacct"]⟩,
       ⟨"/sys/fs/cgroup/memory", "/", ["memory"]⟩]
      [] ⟨"/mnt/cgroup/cpu", "/", ["cpu"]⟩ rfl (by decide) (by simp)⟩

/-- C17: `GetCgroupSubsystems` returns an error if and only if the mount enumeration
itself fails or returns zero mounts; an enumeration failure is returned as that same
error, and in both failing cases the `CgroupSubsystems` returned alongside is empty: no
mounts and no mount points. -/
theorem GetCgroupSubsystems_error_iff
    (GetCgroupMounts : Bool → Option (List Mount) × Option error) :
    ((GetCgroupSubsystems GetCgroupMounts).2 ≠ none ↔
      ((GetCgroupMounts true).2 ≠ none ∨ len (GetCgroupMounts true).1 = 0)) ∧
    (∀ e : error, (GetCgroupMounts true).2 = some e →
      (GetCgroupSubsystems GetCgroupMounts).2 = some e) ∧
    ((GetCgroupSubsystems GetCgroupMounts).2 ≠ none →
      (GetCgroupSubsystems GetCgroupMounts).1.Mounts = none ∧
      (GetCgroupSubsystems GetCgroupMounts).1.MountPoints = none ∧
      len (GetCgroupSubsystems GetCgroupMounts).1.Mounts = 0 ∧
      ∀ s : String, mapGet (GetCgroupSubsystems GetCgroupMounts).1.MountPoints s = none) := by
  cases herr : (GetCgroupMounts true).2 with
  | some e =>
    rw [GetCgroupSubsystems_of_error herr]
    simp [CgroupSubsystems.empty, len, mapGet]
  | none =>
    by_cases hlen : len (GetCgroupMounts true).1 = 0
    · rw [GetCgroupSubsystems_of_no_mounts herr hlen]
      simp [hlen, CgroupSubsystems.empty, mapGet]
      rfl
    · have h2 := GetCgroupSubsystems_of_some_mounts herr hlen
      simp [hlen, h2]

/-! ## Behaviour of the conversions and of the policy -/

/-- On the range where the product with 1024 fits in `int64`, the factored quotient of
`MilliCPUToShares` is the floor quotient. -/
theorem factored_eq_ediv {milliCPU : Int} (h0 : 0 ≤ milliCPU)
    (h1 : milliCPU * 1024 ≤ 9223372036854775807) :
    div64 (mul64 milliCPU SharesPerCPU) MilliCPUToCPU = milliCPU * 1024 / 1000 := by
  unfold mul64 SharesPerCPU MilliCPUToCPU
  rw [wrap64_eq_self (by omega) (by omega), div64_thousand_of_nonneg (by omega) (by omega)]

/-- On the same range the conceptual form `(milliCPU / 1000) * 1024` is computed
without wrapping. -/
theorem conceptual_eq_ediv {milliCPU : Int} (h0 : 0 ≤ milliCPU)
    (h1 : milliCPU * 1024 ≤ 9223372036854775807) :
    mul64 (div64 milliCPU MilliCPUToCPU) SharesPerCPU = milliCPU / 1000 * 1024 := by
  unfold mul64 SharesPerCPU MilliCPUToCPU
  rw [div64_thousand_of_nonneg (by omega) (by omega)]
  exact wrap64_eq_self (by omega) (by omega)

/-- C18: for every milliCPU >= 0 whose product with 1024 fits in `int64`,
`MilliCPUToShares milliCPU` is the factored quotient `(milliCPU*1024)/1000` raised to
`MinShares`; the conceptual form `(milliCPU/1000)*1024` is at most the factored
quotient, the factored quotient is at most the exact rational `milliCPU*1024/1000`, and
it is less than 1 below that exact value. So from milliCPU = 2 on, where nothing is
raised, `MilliCPUToShares milliCPU` itself lies between the conceptual form and the
exact value, less than 1 below the latter. -/
theorem MilliCPUToShares_factored_rounding (milliCPU : Int) (h0 : 0 ≤ milliCPU)
    (h1 : milliCPU * 1024 ≤ maxInt64) :
    MilliCPUToShares milliCPU =
      max MinShares (div64 (mul64 milliCPU SharesPerCPU) MilliCPUToCPU) ∧
    mul64 (div64 milliCPU MilliCPUToCPU) SharesPerCPU ≤
      div64 (mul64 milliCPU SharesPerCPU) MilliCPUToCPU ∧
    ((div64 (mul64 milliCPU SharesPerCPU) MilliCPUToCPU : Int) : ℚ) ≤
      (milliCPU : ℚ) * 1024 / 1000 ∧
    (milliCPU : ℚ) * 1024 / 1000 -
      ((div64 (mul64 milliCPU SharesPerCPU) MilliCPUToCPU : Int) : ℚ) < 1 ∧
    (2 ≤ milliCPU →
      MilliCPUToShares milliCPU = div64 (mul64 milliCPU SharesPerCPU) MilliCPUToCPU ∧
      mul64 (div64 milliCPU MilliCPUToCPU) SharesPerCPU ≤ MilliCPUToShares milliCPU ∧
      ((MilliCPUToShares milliCPU : Int) : ℚ) ≤ (milliCPU : ℚ) * 1024 / 1000 ∧
      (milliCPU : ℚ) * 1024 / 1000 - ((MilliCPUToShares milliCPU : Int) : ℚ) < 1) := by
  unfold maxInt64 at h1
  have hs := MilliCPUToShares_eq_max milliCPU
  rw [hs, factored_eq_ediv h0 h1, conceptual_eq_ediv h0 h1]
  have hlo : milliCPU * 1024 / 1000 * 1000 ≤ milliCPU * 1024 := by omega
  have hhi : milliCPU * 1024 < (milliCPU * 1024 / 1000 + 1) * 1000 := by omega
  have hloq : ((milliCPU * 1024 / 1000 : Int) : ℚ) * 1000 ≤ (milliCPU : ℚ) * 1024 := by
    exact_mod_cast hlo
  have hhiq : (milliCPU : ℚ) * 1024 < (((milliCPU * 1024 / 1000 : Int) : ℚ) + 1) * 1000 := by
    exact_mod_cast hhi
  have hle : ((milliCPU * 1024 / 1000 : Int) : ℚ) ≤ (milliCPU : ℚ) * 1024 / 1000 := by
    rw [le_div_iff₀ (by norm_num)]
    exact hloq
  have hlt : (milliCPU : ℚ) * 1024 / 1000 - ((milliCPU * 1024 / 1000 : Int) : ℚ) < 1 := by
    rw [sub_lt_iff_lt_add, div_lt_iff₀ (by norm_num)]
    linarith
  refine ⟨rfl, by omega, hle, hlt, fun h2 => ?_⟩
  have hmax : max MinShares (milliCPU * 1024 / 1000) = milliCPU * 1024 / 1000 := by
    unfold MinShares
    exact max_eq_right (by omega)
  rw [hmax]
  exact ⟨rfl, by omega, hle, hlt⟩

/-- C18 at milliCPU = 1500: the conceptual form gives 1024, and `MilliCPUToShares`
returns the factored quotient 1536, which is the exact value. -/
theorem MilliCPUToShares_factored_rounding_witness :
    ((0 : Int) ≤ 1500 ∧ (1500 : Int) * 1024 ≤ maxInt64 ∧ (2 : Int) ≤ 1500) ∧
    MilliCPUToShares 1500 = 1536 ∧
    mul64 (div64 1500 MilliCPUToCPU) SharesPerCPU = 1024 ∧
    mul64 (div64 1500 MilliCPUToCPU) SharesPerCPU ≤ MilliCPUToShares 1500 ∧
    ((MilliCPUToShares 1500 : Int) : ℚ) ≤ ((1500 : Int) : ℚ) * 1024 / 1000 ∧
    ((1500 : Int) : ℚ) * 1024 / 1000 - ((MilliCPUToShares 1500 : Int) : ℚ) < 1 :=
  ⟨by decide,
   ((MilliCPUToShares_factored_rounding 1500 (by decide) (by decide)).2.2.2.2
      (by decide)).1.trans (by decide),
   by decide,
   ((MilliCPUToShares_factored_rounding 1500 (by decide) (by decide)).2.2.2.2
      (by decide)).2⟩

theorem all_eq_of_perm {α : Type} {l1 l2 : List α} (p : α → Bool) (h : l1.Perm l2) :
    l1.all p = l2.all p := by
  rw [Bool.eq_iff_iff]
  simp only [List.all_eq_true]
  exact ⟨fun H x hx => H x (h.mem_iff.mpr hx), fun H x hx => H x (h.mem_iff.mp hx)⟩

/-- C19: `ResourceConfigForPod` does not depend on the order of the containers: two
pods whose container lists are permutations of each other and which are put in the same
QoS class get the same `ResourceConfig`. -/
theorem ResourceConfigForPod_perm (GetPodQOS : Pod → QOSClass) (pod pod2 : Pod)
    (hperm : pod.Spec.Containers.Perm pod2.Spec.Containers)
    (hclass : GetPodQOS pod = GetPodQOS pod2) :
    ResourceConfigForPod GetPodQOS pod = ResourceConfigForPod GetPodQOS pod2 := by
  have e1 : sum64 (cpuRequestsOf pod) = sum64 (cpuRequestsOf pod2) := by
    unfold sum64 cpuRequestsOf
    rw [(hperm.map _).sum_eq]
  have e2 : sum64 (cpuLimitsOf pod) = sum64 (cpuLimitsOf pod2) := by
    unfold sum64 cpuLimitsOf
    rw [(hperm.map _).sum_eq]
  have e3 : sum64 (memoryLimitsOf pod) = sum64 (memoryLimitsOf pod2) := by
    unfold sum64 memoryLimitsOf
    rw [(hperm.map _).sum_eq]
  have e4 : allMemoryLimitsNonZero pod = allMemoryLimitsNonZero pod2 := by
    unfold allMemoryLimitsNonZero
    exact all_eq_of_perm _ hperm
  have e5 : allCpuLimitsNonZero pod = allCpuLimitsNonZero pod2 := by
    unfold allCpuLimitsNonZero
    exact all_eq_of_perm _ hperm
  unfold ResourceConfigForPod
  simp only [foldl_step_init, hclass, e1, e2, e3, e4, e5]

/-- C19 on a pod of two different containers and the pod with the two swapped, both
classified `Burstable`. -/
theorem ResourceConfigForPod_perm_witness :
    (mixedPod.Spec.Containers.Perm mixedPodSwapped.Spec.Containers ∧
      classifyAs QOSClass.Burstable mixedPod = classifyAs QOSClass.Burstable mixedPodSwapped) ∧
    ResourceConfigForPod (classifyAs QOSClass.Burstable) mixedPod =
      ResourceConfigForPod (classifyAs QOSClass.Burstable) mixedPodSwapped :=
  ⟨⟨List.Perm.swap _ _ _, rfl⟩,
   ResourceConfigForPod_perm (classifyAs QOSClass.Burstable) mixedPod mixedPodSwapped
     (List.Perm.swap _ _ _) rfl⟩

/-- C20: the conversions are monotone where their products do not overflow `int64`: for
all 0 <= a <= b, if b <= 9007199254740991 then
`MilliCPUToShares a <= MilliCPUToShares b`, and if b <= 92233720368547 then the quota of
`MilliCPUToQuota a` is at most the quota of `MilliCPUToQuota b`. -/
theorem conversions_monotone (a b : Int) (h0 : 0 ≤ a) (hab : a ≤ b) :
    (b ≤ 9007199254740991 → MilliCPUToShares a ≤ MilliCPUToShares b) ∧
    (b ≤ 92233720368547 → (MilliCPUToQuota a).1 ≤ (MilliCPUToQuota b).1) := by
  constructor
  · intro hb
    rw [MilliCPUToShares_eq_max, MilliCPUToShares_eq_max,
      factored_eq_ediv h0 (by omega), factored_eq_ediv (by omega) (by omega)]
    exact max_le_max (le_refl _) (by omega)
  · intro hb
    have quota_eq : ∀ m : Int, 0 < m → m ≤ 92233720368547 →
        (MilliCPUToQuota m).1 = max 1000 (m * 100000 / 1000) := by
      intro m hm0 hm1
      rw [MilliCPUToQuota_of_ne_zero (by omega)]
      unfold mul64 QuotaPeriod MilliCPUToCPU MinQuotaPeriod
      rw [wrap64_eq_self (by omega) (by omega), div64_thousand_of_nonneg (by omega) (by omega)]
    by_cases ha : a = 0
    · subst ha
      rw [MilliCPUToQuota_zero]
      by_cases hb0 : b = 0
      · subst hb0
        rw [MilliCPUToQuota_zero]
      · rw [quota_eq b (by omega) hb]
        exact le_trans (by decide) (le_max_left _ _)
    · rw [quota_eq a (by omega) (by omega), quota_eq b (by omega) hb]
      exact max_le_max (le_refl _) (by omega)

/-- C20 at a = 1 and b = 2000: the shares go from 2 to 2048 and the quota from 1000 to
200000. -/
theorem conversions_monotone_witness :
    ((0 : Int) ≤ 1 ∧ (1 : Int) ≤ 2000) ∧
    (((2000 : Int) ≤ 9007199254740991 → MilliCPUToShares 1 ≤ MilliCPUToShares 2000) ∧
     ((2000 : Int) ≤ 92233720368547 → (MilliCPUToQuota 1).1 ≤ (MilliCPUToQuota 2000).1)) :=
  ⟨by decide, conversions_monotone 1 2000 (by decide) (by decide)⟩

end cm
